import Mathlib

/-!
Verification development for the typed-sse library.

The model below is a shallow embedding of:
  - `parseEvent` (src/src/types.ts, lines 37-45),
  - the `TypedEventSource` connection manager
    (src/src/typedEventSource.ts, lines 14-109),
  - the adapter `addTypedDataEventListener` variant with an
    `errorHandler` parameter and a closed-transport check
    (the repository file embedded at src/unnamed/part_003, lines 61-91).

Modelling conventions:
  - A transport instance (`EventSource`) is identified by its creation
    index; `TypedEventSource.transports` is the list of every instance
    created so far, and `es` holds the index of the current one, mirroring
    the nullable object reference `this.es`.
  - The wrapped decode-and-dispatch closures created by `on()` are
    identified by a fresh entry id per call (the code relies on function
    identity; each `on()` allocates a fresh closure).
  - The listener registry `Map<string, Set<fn>>` is flattened to a
    duplicate-free list of (event name, entry id) pairs in chronological
    order; `Set.add` of a freshly allocated closure is an append, and
    `Set.delete` / `removeEventListener` remove the unique occurrence.
  - `JSON.parse` is an uninterpreted parameter `parse`; `parse s = none`
    models a parse that throws (caught by `parseEvent`, which returns
    null), `parse s = some v` a successful parse.
  - Timers (`setTimeout`) are modelled by a pending list of scheduled
    delays; a timer firing runs the `connect` continuation.
  - Handler invocations are recorded in a log of
    (entry id, decoded value) pairs.
  - All functions are total: the JS code on these paths throws only where
    noted (adapter without errorHandler), which the model makes explicit.
-/

/-- JavaScript runtime value carried as an SSE message payload
(`event.data`): null, undefined, booleans, numbers, strings or plain
objects. -/
inductive JSVal where
  | jnull
  | jundef
  | jbool (b : Bool)
  | jnum (n : Int)
  | jstr (s : String)
  | jobj (fields : List (String × JSVal))

/-- test `typeof event.data === "string"` in parseEvent. -/
def JSVal.isString : JSVal → Bool
  | .jstr _ => true
  | _ => false

/-- test negation of the loose comparison `data != null`: true exactly for
null and undefined, the two values the dispatch guard filters out. -/
def JSVal.isNullish : JSVal → Bool
  | .jnull => true
  | .jundef => true
  | _ => false

/-- `parseEvent` from src/src/types.ts: a string payload is JSON-parsed,
with a thrown parse error caught and turned into null; a non-string
payload is returned as-is without re-parsing. -/
def parseEvent (parse : String → Option JSVal) (data : JSVal) : JSVal :=
  match data with
  | .jstr s => (parse s).getD .jnull
  | v => v

/-- the wrapped closure built in `TypedEventSource.on` (and in the
adapter): decode with parseEvent, invoke the typed handler only when the
decoded value passes `data != null`. Returns the value handed to the
handler, or none when the handler is not invoked. -/
def wrappedDispatch (parse : String → Option JSVal) (data : JSVal) : Option JSVal :=
  let d := parseEvent parse data
  if d.isNullish then none else some d

/-- a transport instance (an `EventSource` object). `closedT` models
readyState = CLOSED, which is terminal; `listeners` is its internal
listener list of (event name, entry id) registrations made through
addEventListener. -/
structure Transport where
  closedT : Bool
  listeners : List (String × Nat)
deriving DecidableEq, Repr

/-- `addEventListener(type, fn)`: idempotent per (type, callback) pair. -/
def Transport.addListener (t : Transport) (ty : String) (eid : Nat) : Transport :=
  if (ty, eid) ∈ t.listeners then t
  else { t with listeners := t.listeners ++ [(ty, eid)] }

/-- `removeEventListener(type, fn)`: removes the registration of that
(type, callback) pair. -/
def Transport.removeListener (t : Transport) (ty : String) (eid : Nat) : Transport :=
  { t with listeners := t.listeners.filter (fun q => decide (q ≠ (ty, eid))) }

/-- `close()` on the transport: readyState becomes CLOSED, terminally. -/
def Transport.close (t : Transport) : Transport :=
  { t with closedT := true }

/-- delivery of one application message on a transport: a closed
EventSource dispatches nothing (CLOSED is terminal); otherwise every
listener attached under the event name runs its wrapped closure, and the
invocations of the typed handlers are returned as
(entry id, decoded value) pairs. -/
def Transport.deliver (parse : String → Option JSVal) (t : Transport)
    (ty : String) (d : JSVal) : List (Nat × JSVal) :=
  if t.closedT then []
  else (t.listeners.filter (fun q => decide (q.1 = ty))).filterMap
    (fun q => (wrappedDispatch parse d).map (fun v => (q.2, v)))

/-- retry configuration `{ base?, max? }` from CreateOptions
(src/src/types.ts). -/
structure RetryCfg where
  base? : Option Nat
  max? : Option Nat
deriving DecidableEq, Repr

/-- the backoff expression computed in onerror:
`Math.min((base ?? 500) * Math.pow(2, attempt - 1), max ?? 30000)`. -/
def backoffDelay (cfg : RetryCfg) (attempt : Nat) : Nat :=
  Nat.min ((cfg.base?.getD 500) * 2 ^ (attempt - 1)) (cfg.max?.getD 30000)

/-- state of one `TypedEventSource` connection manager together with the
environment it interacts with: every transport instance created so far
(indexed by creation order), the scheduled reconnect timers, and the log
of typed-handler invocations. -/
structure TypedEventSource where
  es : Option Nat
  closed : Bool
  attempt : Nat
  retryCfg : Option RetryCfg
  listeners : List (String × Nat)
  transports : List Transport
  pending : List Nat
  nextEntryId : Nat
  invocations : List (Nat × JSVal)

/-- look up a transport instance by its creation index. -/
def TypedEventSource.getT (s : TypedEventSource) (tid : Nat) : Option Transport :=
  s.transports[tid]?

/-- apply an update to the transport instance at one creation index. -/
def modifyAt (l : List Transport) (i : Nat) (f : Transport → Transport) : List Transport :=
  match l, i with
  | [], _ => []
  | t :: ts, 0 => f t :: ts
  | t :: ts, i + 1 => t :: modifyAt ts i f

/-- apply an update to the transport the manager currently references,
modelling a method call through `this.es?.`. -/
def TypedEventSource.updateCur (s : TypedEventSource) (f : Transport → Transport) :
    TypedEventSource :=
  match s.es with
  | some cur => { s with transports := modifyAt s.transports cur f }
  | none => s

/-- `connect()` from src/src/typedEventSource.ts (lines 61-84): if closed,
return; otherwise create a new transport instance, set `attempt = 0`
(line 65), install the open/error handlers, and run `attachAll()`, which
replays every registry entry onto the new instance through
addEventListener. -/
def TypedEventSource.connect (s : TypedEventSource) : TypedEventSource :=
  if s.closed then s
  else
    let t0 : Transport := { closedT := false, listeners := [] }
    let t := s.listeners.foldl (fun t p => t.addListener p.1 p.2) t0
    { s with transports := s.transports ++ [t],
             es := some s.transports.length,
             attempt := 0 }

/-- the `onerror` handler body (lines 71-81): fires on a live (not closed)
transport instance; closes and drops the current transport reference, then
unless the manager is closed or retry is disabled, increments the attempt
counter and schedules a reconnect after the backoff delay. -/
def TypedEventSource.errorFired (s : TypedEventSource) (tid : Nat) : TypedEventSource :=
  match s.getT tid with
  | none => s
  | some t =>
    if t.closedT then s
    else
      let s1 := s.updateCur Transport.close
      let s2 := { s1 with es := none }
      if s2.closed then s2
      else
        match s2.retryCfg with
        | none => s2
        | some cfg =>
          let a := s2.attempt + 1
          { s2 with attempt := a, pending := s2.pending ++ [backoffDelay cfg a] }

/-- the `onopen` handler body (lines 67-69): fires on a live transport
instance; resets the attempt counter to 0. -/
def TypedEventSource.openFired (s : TypedEventSource) (tid : Nat) : TypedEventSource :=
  match s.getT tid with
  | none => s
  | some t => if t.closedT then s else { s with attempt := 0 }

/-- a scheduled reconnect timer fires: its callback runs `connect()`. -/
def TypedEventSource.timerFired (s : TypedEventSource) : TypedEventSource :=
  match s.pending with
  | [] => s
  | _ :: rest => TypedEventSource.connect { s with pending := rest }

/-- `on(type, handler)` (lines 86-98): allocate a fresh wrapped closure,
`addRaw` it (store in the registry, and attach to the current transport if
one is live), and return the detachment handle, identified by the
(event name, entry id) pair the stopListening closure captures. -/
def TypedEventSource.on (s : TypedEventSource) (ty : String) :
    (String × Nat) × TypedEventSource :=
  let eid := s.nextEntryId
  let s1 := { s with listeners := s.listeners ++ [(ty, eid)],
                     nextEntryId := eid + 1 }
  let s2 := s1.updateCur (fun t => t.addListener ty eid)
  ((ty, eid), s2)

/-- the `stopListening` closure returned by `on` runs
`removeRaw(type, wrapped)` (lines 50-53): delete the entry from the
registry and detach it from the current transport if one is live. -/
def TypedEventSource.stopListening (s : TypedEventSource) (h : String × Nat) :
    TypedEventSource :=
  let s1 := { s with listeners := s.listeners.filter (fun q => decide (q ≠ h)) }
  s1.updateCur (fun t => t.removeListener h.1 h.2)

/-- `close()` (lines 100-104): set the closed flag, close the live
transport if present, and drop the reference. The registry is not
cleared. -/
def TypedEventSource.close (s : TypedEventSource) : TypedEventSource :=
  let s1 := s.updateCur Transport.close
  { s1 with closed := true, es := none }

/-- an application message arriving on transport instance `tid`: the
transport dispatches it to its attached listeners (nothing if it is
closed), appending the resulting typed-handler invocations to the log. -/
def TypedEventSource.deliver (parse : String → Option JSVal) (s : TypedEventSource)
    (tid : Nat) (ty : String) (d : JSVal) : TypedEventSource :=
  match s.getT tid with
  | none => s
  | some t => { s with invocations := s.invocations ++ t.deliver parse ty d }

/-- the constructor (lines 23-40): resolve the retry configuration
(defaults `{base: 500, max: 30000}` only when `opts.retry` is undefined;
`null` disables retries entirely), then `connect()`. `retry? = none`
models an absent option, `retry? = some none` models `retry: null`, and
`retry? = some (some cfg)` models an explicit configuration. -/
def TypedEventSource.construct (retry? : Option (Option RetryCfg)) : TypedEventSource :=
  TypedEventSource.connect
    { es := none, closed := false, attempt := 0,
      retryCfg := match retry? with
        | none => some ⟨some 500, some 30000⟩
        | some r => r,
      listeners := [], transports := [], pending := [],
      nextEntryId := 0, invocations := [] }

/-- external stimuli driving the manager: transport error and open
signals, timer firings, and the public API calls. -/
inductive Step where
  | error (tid : Nat)
  | sigOpen (tid : Nat)
  | timer
  | close
  | sub (ty : String)
  | unsub (h : String × Nat)
  | msg (tid : Nat) (ty : String) (d : JSVal)

/-- apply one stimulus to the manager state. -/
def TypedEventSource.step (parse : String → Option JSVal) (s : TypedEventSource) :
    Step → TypedEventSource
  | .error tid => s.errorFired tid
  | .sigOpen tid => s.openFired tid
  | .timer => s.timerFired
  | .close => s.close
  | .sub ty => (s.on ty).2
  | .unsub h => s.stopListening h
  | .msg tid ty d => s.deliver parse tid ty d

/-- apply a sequence of stimuli. -/
def TypedEventSource.run (parse : String → Option JSVal) (s : TypedEventSource)
    (steps : List Step) : TypedEventSource :=
  steps.foldl (TypedEventSource.step parse) s

/-- result of a call to the adapter `addTypedDataEventListener`
(src/unnamed/part_003, lines 61-91): whether the call threw synchronously,
whether it invoked the supplied errorHandler, and the state of the
transport afterwards. -/
structure AdapterResult where
  threw : Bool
  errorSignalled : Bool
  es : Transport
deriving DecidableEq, Repr

/-- the adapter `addTypedDataEventListener(eventSource, eventName, handler,
errorHandler?)`: if the transport is already CLOSED, signal an error -
through the errorHandler when one was supplied, otherwise by throwing
synchronously (which aborts before any attachment). When it does not
throw, the wrapped listener is attached through addEventListener. -/
def addTypedDataEventListener (es : Transport) (eventName : String) (eid : Nat)
    (hasErrorHandler : Bool) : AdapterResult :=
  if es.closedT then
    if hasErrorHandler then
      { threw := false, errorSignalled := true,
        es := es.addListener eventName eid }
    else
      { threw := true, errorSignalled := false, es := es }
  else
    { threw := false, errorSignalled := false,
      es := es.addListener eventName eid }

/-! Basic lemmas about the list plumbing of the model. -/

theorem length_modifyAt (l : List Transport) (i : Nat) (f : Transport → Transport) :
    (modifyAt l i f).length = l.length := by
  induction l generalizing i with
  | nil => rfl
  | cons t ts ih => cases i <;> simp [modifyAt, ih]

theorem getElem?_modifyAt (l : List Transport) (i j : Nat) (f : Transport → Transport) :
    (modifyAt l i f)[j]? = if j = i then (l[j]?).map f else l[j]? := by
  induction l generalizing i j with
  | nil => simp [modifyAt]
  | cons t ts ih =>
    cases i with
    | zero => cases j <;> simp [modifyAt]
    | succ i => cases j <;> simp [modifyAt, ih]

theorem getElem?_concat_len (l : List Transport) (t : Transport) :
    (l ++ [t])[l.length]? = some t := by
  induction l with
  | nil => rfl
  | cons a as ih =>
    simp only [List.cons_append, List.length_cons, List.getElem?_cons_succ]
    exact ih

theorem getElem?_concat_lt (l : List Transport) (t : Transport) (i : Nat)
    (h : i < l.length) :
    (l ++ [t])[i]? = l[i]? := by
  induction l generalizing i with
  | nil => simp at h
  | cons a as ih =>
    cases i with
    | zero => simp
    | succ i => simpa using ih i (by simpa using h)

theorem getElem?_some_lt {l : List Transport} {i : Nat} {t : Transport}
    (h : l[i]? = some t) : i < l.length := by
  by_contra hc
  rw [List.getElem?_eq_none (by omega)] at h
  exact Option.noConfusion h

/-! Well-formedness of a manager state: the properties every state
reachable from construction satisfies. -/

/-- invariants tying the manager to its transports: every transport other
than the current one has been closed; a closed manager holds no transport
reference; all entry ids in the registry and in transport listener lists
were allocated before `nextEntryId`; registry entry ids are duplicate-free
(the registry is a Map of Sets of distinct closures); a reconnect timer is
only pending while no transport is live, and at most one timer is pending
at a time. -/
structure Wf (s : TypedEventSource) : Prop where
  staleClosed : ∀ (i : Nat) (t : Transport),
    s.transports[i]? = some t → s.es ≠ some i → t.closedT = true
  closedEs : s.closed = true → s.es = none
  regBound : ∀ p ∈ s.listeners, p.2 < s.nextEntryId
  trBound : ∀ (i : Nat) (t : Transport),
    s.transports[i]? = some t → ∀ p ∈ t.listeners, p.2 < s.nextEntryId
  regNodup : (s.listeners.map Prod.snd).Nodup
  esPending : ∀ i, s.es = some i → s.pending = []
  pendLen : s.pending.length ≤ 1

theorem foldl_addListener_eq (reg : List (String × Nat)) (t : Transport)
    (hnd : (t.listeners ++ reg).Nodup) :
    reg.foldl (fun t p => t.addListener p.1 p.2) t
      = { t with listeners := t.listeners ++ reg } := by
  induction reg generalizing t with
  | nil => simp
  | cons p rest ih =>
    have hp : p ∉ t.listeners := fun hmem =>
      (List.disjoint_of_nodup_append hnd) hmem (List.mem_cons_self p rest)
    have h1 : t.addListener p.1 p.2 = { t with listeners := t.listeners ++ [p] } := by
      rw [Transport.addListener, if_neg]
      intro hmem
      exact hp (by simpa using hmem)
    rw [List.foldl_cons, h1, ih]
    · simp
    · simp only [List.append_assoc, List.singleton_append]
      exact hnd

theorem addListener_closedT (t : Transport) (ty : String) (eid : Nat) :
    (t.addListener ty eid).closedT = t.closedT := by
  unfold Transport.addListener
  split <;> rfl

theorem mem_addListener {t : Transport} {ty : String} {eid : Nat} {p : String × Nat}
    (h : p ∈ (t.addListener ty eid).listeners) :
    p ∈ t.listeners ∨ p = (ty, eid) := by
  unfold Transport.addListener at h
  split at h
  · exact Or.inl h
  · rcases List.mem_append.mp h with h1 | h1
    · exact Or.inl h1
    · simp at h1
      exact Or.inr (by simp [h1])

theorem removeListener_closedT (t : Transport) (ty : String) (eid : Nat) :
    (t.removeListener ty eid).closedT = t.closedT := rfl

theorem mem_removeListener {t : Transport} {ty : String} {eid : Nat} {p : String × Nat}
    (h : p ∈ (t.removeListener ty eid).listeners) : p ∈ t.listeners :=
  List.mem_of_mem_filter h

theorem close_listeners (t : Transport) : (Transport.close t).listeners = t.listeners := rfl

/-- closed form of `connect` on a not-closed state with a duplicate-free
registry: one fresh live transport carrying exactly the registry. -/
theorem connect_eq (s : TypedEventSource) (hc : s.closed = false)
    (hnd : s.listeners.Nodup) :
    s.connect = { s with
      transports := s.transports ++ [⟨false, s.listeners⟩],
      es := some s.transports.length,
      attempt := 0 } := by
  have h2 := foldl_addListener_eq s.listeners ⟨false, []⟩ (by simpa using hnd)
  unfold TypedEventSource.connect
  rw [if_neg (by simp [hc])]
  simp only [h2]
  simp

theorem wf_connect (s : TypedEventSource) (hwf : Wf s) (hes : s.es = none)
    (hp : s.pending = []) : Wf s.connect := by
  obtain ⟨hsc, hce, hrb, htb, hrn, hep, hpl⟩ := hwf
  by_cases hc : s.closed = true
  · unfold TypedEventSource.connect
    rw [if_pos (by simp [hc])]
    exact ⟨hsc, hce, hrb, htb, hrn, hep, hpl⟩
  · have hc' : s.closed = false := by
      cases h : s.closed
      · rfl
      · exact absurd h hc
    rw [connect_eq s hc' (List.Nodup.of_map _ hrn)]
    refine ⟨?_, ?_, ?_, ?_, ?_, ?_, ?_⟩
    · intro i t h hne
      have hlt : i < (s.transports ++ [(⟨false, s.listeners⟩ : Transport)]).length :=
        getElem?_some_lt h
      simp only [List.length_append, List.length_cons, List.length_nil] at hlt
      have hne' : i ≠ s.transports.length := by
        intro he
        exact hne (by simp [he])
      have hi : i < s.transports.length := by omega
      rw [getElem?_concat_lt _ _ _ hi] at h
      exact hsc i t h (by rw [hes]; intro hcon; exact Option.noConfusion hcon)
    · intro h
      simp only at h
      rw [hc'] at h
      exact absurd h (by simp)
    · exact hrb
    · intro i t h p hpmem
      have hlt : i < (s.transports ++ [(⟨false, s.listeners⟩ : Transport)]).length :=
        getElem?_some_lt h
      simp only [List.length_append, List.length_cons, List.length_nil] at hlt
      by_cases hi : i < s.transports.length
      · rw [getElem?_concat_lt _ _ _ hi] at h
        exact htb i t h p hpmem
      · have hieq : i = s.transports.length := by omega
        rw [hieq, getElem?_concat_len] at h
        cases h
        exact hrb p hpmem
    · exact hrn
    · intro i _
      exact hp
    · simp [hp]

theorem wf_construct (retry? : Option (Option RetryCfg)) :
    Wf (TypedEventSource.construct retry?) := by
  unfold TypedEventSource.construct
  apply wf_connect
  · refine ⟨?_, ?_, ?_, ?_, ?_, ?_, ?_⟩ <;> simp
  · rfl
  · rfl

/-! Projection and unfolding lemmas for the manager operations. -/

@[simp] theorem updateCur_es (s : TypedEventSource) (f : Transport → Transport) :
    (s.updateCur f).es = s.es := by
  unfold TypedEventSource.updateCur
  cases h : s.es <;> simp [h]

@[simp] theorem updateCur_closed (s : TypedEventSource) (f : Transport → Transport) :
    (s.updateCur f).closed = s.closed := by
  unfold TypedEventSource.updateCur
  cases h : s.es <;> simp [h]

@[simp] theorem updateCur_attempt (s : TypedEventSource) (f : Transport → Transport) :
    (s.updateCur f).attempt = s.attempt := by
  unfold TypedEventSource.updateCur
  cases h : s.es <;> simp [h]

@[simp] theorem updateCur_retryCfg (s : TypedEventSource) (f : Transport → Transport) :
    (s.updateCur f).retryCfg = s.retryCfg := by
  unfold TypedEventSource.updateCur
  cases h : s.es <;> simp [h]

@[simp] theorem updateCur_listeners (s : TypedEventSource) (f : Transport → Transport) :
    (s.updateCur f).listeners = s.listeners := by
  unfold TypedEventSource.updateCur
  cases h : s.es <;> simp [h]

@[simp] theorem updateCur_pending (s : TypedEventSource) (f : Transport → Transport) :
    (s.updateCur f).pending = s.pending := by
  unfold TypedEventSource.updateCur
  cases h : s.es <;> simp [h]

@[simp] theorem updateCur_nextEntryId (s : TypedEventSource) (f : Transport → Transport) :
    (s.updateCur f).nextEntryId = s.nextEntryId := by
  unfold TypedEventSource.updateCur
  cases h : s.es <;> simp [h]

@[simp] theorem updateCur_invocations (s : TypedEventSource) (f : Transport → Transport) :
    (s.updateCur f).invocations = s.invocations := by
  unfold TypedEventSource.updateCur
  cases h : s.es <;> simp [h]

theorem updateCur_transports_none {s : TypedEventSource} (f : Transport → Transport)
    (h : s.es = none) : (s.updateCur f).transports = s.transports := by
  unfold TypedEventSource.updateCur
  simp only [h]

theorem updateCur_transports_some {s : TypedEventSource} (f : Transport → Transport)
    {cur : Nat} (h : s.es = some cur) :
    (s.updateCur f).transports = modifyAt s.transports cur f := by
  unfold TypedEventSource.updateCur
  simp only [h]

theorem on_fst (s : TypedEventSource) (ty : String) :
    (s.on ty).1 = (ty, s.nextEntryId) := rfl

theorem on_snd_none (s : TypedEventSource) (ty : String) (h : s.es = none) :
    (s.on ty).2 = { s with
      listeners := s.listeners ++ [(ty, s.nextEntryId)],
      nextEntryId := s.nextEntryId + 1 } := by
  unfold TypedEventSource.on TypedEventSource.updateCur
  simp [h]

theorem on_snd_some (s : TypedEventSource) (ty : String) {cur : Nat}
    (h : s.es = some cur) :
    (s.on ty).2 = { s with
      listeners := s.listeners ++ [(ty, s.nextEntryId)],
      nextEntryId := s.nextEntryId + 1,
      transports := modifyAt s.transports cur
        (fun t => t.addListener ty s.nextEntryId) } := by
  unfold TypedEventSource.on TypedEventSource.updateCur
  simp [h]

theorem stop_none (s : TypedEventSource) (h : String × Nat) (hes : s.es = none) :
    s.stopListening h = { s with
      listeners := s.listeners.filter (fun q => decide (q ≠ h)) } := by
  unfold TypedEventSource.stopListening TypedEventSource.updateCur
  simp [hes]

theorem stop_some (s : TypedEventSource) (h : String × Nat) {cur : Nat}
    (hes : s.es = some cur) :
    s.stopListening h = { s with
      listeners := s.listeners.filter (fun q => decide (q ≠ h)),
      transports := modifyAt s.transports cur
        (fun t => t.removeListener h.1 h.2) } := by
  unfold TypedEventSource.stopListening TypedEventSource.updateCur
  simp [hes]

theorem close_eq_none (s : TypedEventSource) (hes : s.es = none) :
    s.close = { s with closed := true, es := none } := by
  unfold TypedEventSource.close TypedEventSource.updateCur
  simp [hes]

theorem close_eq_some (s : TypedEventSource) {cur : Nat} (hes : s.es = some cur) :
    s.close = { s with
      closed := true,
      es := none,
      transports := modifyAt s.transports cur Transport.close } := by
  unfold TypedEventSource.close TypedEventSource.updateCur
  simp [hes]

theorem deliver_none (parse : String → Option JSVal) (s : TypedEventSource)
    (tid : Nat) (ty : String) (d : JSVal) (hg : s.getT tid = none) :
    s.deliver parse tid ty d = s := by
  unfold TypedEventSource.deliver
  rw [hg]

theorem deliver_some (parse : String → Option JSVal) (s : TypedEventSource)
    (tid : Nat) (ty : String) (d : JSVal) {t : Transport} (hg : s.getT tid = some t) :
    s.deliver parse tid ty d
      = { s with invocations := s.invocations ++ t.deliver parse ty d } := by
  unfold TypedEventSource.deliver
  rw [hg]

theorem errorFired_notFound (s : TypedEventSource) (tid : Nat)
    (hg : s.getT tid = none) : s.errorFired tid = s := by
  unfold TypedEventSource.errorFired
  simp [hg]

theorem errorFired_closedT (s : TypedEventSource) (tid : Nat) (t : Transport)
    (hg : s.getT tid = some t) (hc : t.closedT = true) : s.errorFired tid = s := by
  unfold TypedEventSource.errorFired
  simp [hg, hc]

theorem errorFired_active_noRetry (s : TypedEventSource) (tid : Nat) (t : Transport)
    (hg : s.getT tid = some t) (hc : t.closedT = false) (hmc : s.closed = false)
    (hr : s.retryCfg = none) :
    s.errorFired tid = { s.updateCur Transport.close with es := none } := by
  unfold TypedEventSource.errorFired
  simp [hg, hc, hmc, hr]

theorem errorFired_active_retry (s : TypedEventSource) (tid : Nat) (t : Transport)
    (cfg : RetryCfg) (hg : s.getT tid = some t) (hc : t.closedT = false)
    (hmc : s.closed = false) (hr : s.retryCfg = some cfg) :
    s.errorFired tid = { s.updateCur Transport.close with
      es := none,
      attempt := s.attempt + 1,
      pending := s.pending ++ [backoffDelay cfg (s.attempt + 1)] } := by
  unfold TypedEventSource.errorFired
  simp [hg, hc, hmc, hr]

theorem openFired_notFound (s : TypedEventSource) (tid : Nat)
    (hg : s.getT tid = none) : s.openFired tid = s := by
  unfold TypedEventSource.openFired
  simp [hg]

theorem openFired_closedT (s : TypedEventSource) (tid : Nat) (t : Transport)
    (hg : s.getT tid = some t) (hc : t.closedT = true) : s.openFired tid = s := by
  unfold TypedEventSource.openFired
  simp [hg, hc]

theorem openFired_live (s : TypedEventSource) (tid : Nat) (t : Transport)
    (hg : s.getT tid = some t) (hc : t.closedT = false) :
    s.openFired tid = { s with attempt := 0 } := by
  unfold TypedEventSource.openFired
  simp [hg, hc]

theorem timerFired_nil (s : TypedEventSource) (hp : s.pending = []) :
    s.timerFired = s := by
  unfold TypedEventSource.timerFired
  simp [hp]

theorem timerFired_cons (s : TypedEventSource) (d : Nat) (rest : List Nat)
    (hp : s.pending = d :: rest) :
    s.timerFired = TypedEventSource.connect { s with pending := rest } := by
  unfold TypedEventSource.timerFired
  simp [hp]

theorem modifyAt_cases {l : List Transport} {cur i : Nat} {f : Transport → Transport}
    {t : Transport} (h : (modifyAt l cur f)[i]? = some t) :
    (i ≠ cur ∧ l[i]? = some t) ∨ (i = cur ∧ ∃ t0, l[i]? = some t0 ∧ t = f t0) := by
  rw [getElem?_modifyAt] at h
  by_cases hic : i = cur
  · rw [if_pos hic] at h
    rcases Option.map_eq_some'.mp h with ⟨t0, h0, he⟩
    exact Or.inr ⟨hic, t0, h0, he.symm⟩
  · rw [if_neg hic] at h
    exact Or.inl ⟨hic, h⟩

/-! Preservation of well-formedness by every operation. -/

theorem wf_close (s : TypedEventSource) (hwf : Wf s) : Wf s.close := by
  obtain ⟨hsc, hce, hrb, htb, hrn, hep, hpl⟩ := hwf
  cases hes : s.es with
  | none =>
    rw [close_eq_none s hes]
    refine ⟨?_, fun _ => rfl, hrb, htb, hrn, ?_, hpl⟩
    · intro i t h _
      exact hsc i t h (by rw [hes]; exact fun hcon => Option.noConfusion hcon)
    · intro i h
      exact Option.noConfusion h
  | some cur =>
    rw [close_eq_some s hes]
    refine ⟨?_, fun _ => rfl, hrb, ?_, hrn, ?_, hpl⟩
    · intro i t h _
      rcases modifyAt_cases h with ⟨hic, h1⟩ | ⟨hic, t0, h0, rfl⟩
      · exact hsc i t h1 (by rw [hes]; intro hcon; exact hic (Option.some.inj hcon).symm)
      · rfl
    · intro i t h p hp
      rcases modifyAt_cases h with ⟨_, h1⟩ | ⟨_, t0, h0, rfl⟩
      · exact htb i t h1 p hp
      · exact htb i t0 h0 p hp
    · intro i h
      exact Option.noConfusion h

theorem wf_deliver (parse : String → Option JSVal) (s : TypedEventSource)
    (tid : Nat) (ty : String) (d : JSVal) (hwf : Wf s) :
    Wf (s.deliver parse tid ty d) := by
  obtain ⟨hsc, hce, hrb, htb, hrn, hep, hpl⟩ := hwf
  cases hg : s.getT tid with
  | none =>
    rw [deliver_none parse s tid ty d hg]
    exact ⟨hsc, hce, hrb, htb, hrn, hep, hpl⟩
  | some t =>
    rw [deliver_some parse s tid ty d hg]
    exact ⟨hsc, hce, hrb, htb, hrn, hep, hpl⟩

theorem wf_openFired (s : TypedEventSource) (tid : Nat) (hwf : Wf s) :
    Wf (s.openFired tid) := by
  obtain ⟨hsc, hce, hrb, htb, hrn, hep, hpl⟩ := hwf
  cases hg : s.getT tid with
  | none =>
    rw [openFired_notFound s tid hg]
    exact ⟨hsc, hce, hrb, htb, hrn, hep, hpl⟩
  | some t =>
    cases hc : t.closedT with
    | true =>
      rw [openFired_closedT s tid t hg hc]
      exact ⟨hsc, hce, hrb, htb, hrn, hep, hpl⟩
    | false =>
      rw [openFired_live s tid t hg hc]
      exact ⟨hsc, hce, hrb, htb, hrn, hep, hpl⟩

theorem wf_on (s : TypedEventSource) (ty : String) (hwf : Wf s) : Wf (s.on ty).2 := by
  obtain ⟨hsc, hce, hrb, htb, hrn, hep, hpl⟩ := hwf
  have hregNodup : ((s.listeners ++ [(ty, s.nextEntryId)]).map Prod.snd).Nodup := by
    rw [List.map_append]
    refine List.Nodup.append hrn (by simp) ?_
    intro a ha hb
    simp only [List.map_cons, List.map_nil, List.mem_singleton] at hb
    subst hb
    rcases List.mem_map.mp ha with ⟨p, hpmem, hpe⟩
    have := hrb p hpmem
    omega
  have hregBound : ∀ p ∈ s.listeners ++ [(ty, s.nextEntryId)],
      p.2 < s.nextEntryId + 1 := by
    intro p hp
    rcases List.mem_append.mp hp with h1 | h1
    · exact Nat.lt_succ_of_lt (hrb p h1)
    · simp only [List.mem_singleton] at h1
      subst h1
      exact Nat.lt_succ_self _
  cases hes : s.es with
  | none =>
    rw [on_snd_none s ty hes]
    refine ⟨?_, hce, hregBound, ?_, hregNodup, hep, hpl⟩
    · intro i t h hne
      exact hsc i t h hne
    · intro i t h p hp
      exact Nat.lt_succ_of_lt (htb i t h p hp)
  | some cur =>
    rw [on_snd_some s ty hes]
    refine ⟨?_, hce, hregBound, ?_, hregNodup, hep, hpl⟩
    · intro i t h hne
      rcases modifyAt_cases h with ⟨hic, h1⟩ | ⟨hic, t0, h0, rfl⟩
      · exact hsc i t h1 hne
      · exact absurd (show s.es = some i by rw [hes, hic]) hne
    · intro i t h p hp
      rcases modifyAt_cases h with ⟨_, h1⟩ | ⟨_, t0, h0, rfl⟩
      · exact Nat.lt_succ_of_lt (htb i t h1 p hp)
      · rcases mem_addListener hp with h2 | h2
        · exact Nat.lt_succ_of_lt (htb i t0 h0 p h2)
        · subst h2
          exact Nat.lt_succ_self _

theorem wf_stop (s : TypedEventSource) (h : String × Nat) (hwf : Wf s) :
    Wf (s.stopListening h) := by
  obtain ⟨hsc, hce, hrb, htb, hrn, hep, hpl⟩ := hwf
  have hregNodup :
      ((s.listeners.filter (fun q => decide (q ≠ h))).map Prod.snd).Nodup :=
    List.Nodup.sublist (List.Sublist.map _ (List.filter_sublist _)) hrn
  have hregBound : ∀ p ∈ s.listeners.filter (fun q => decide (q ≠ h)),
      p.2 < s.nextEntryId :=
    fun p hp => hrb p (List.mem_of_mem_filter hp)
  cases hes : s.es with
  | none =>
    rw [stop_none s h hes]
    exact ⟨hsc, hce, hregBound, htb, hregNodup, hep, hpl⟩
  | some cur =>
    rw [stop_some s h hes]
    refine ⟨?_, hce, hregBound, ?_, hregNodup, hep, hpl⟩
    · intro i t ht hne
      rcases modifyAt_cases ht with ⟨hic, h1⟩ | ⟨hic, t0, h0, rfl⟩
      · exact hsc i t h1 hne
      · exact absurd (show s.es = some i by rw [hes, hic]) hne
    · intro i t ht p hp
      rcases modifyAt_cases ht with ⟨_, h1⟩ | ⟨_, t0, h0, rfl⟩
      · exact htb i t h1 p hp
      · exact htb i t0 h0 p (mem_removeListener hp)

theorem wf_errorFired (s : TypedEventSource) (tid : Nat) (hwf : Wf s) :
    Wf (s.errorFired tid) := by
  obtain ⟨hsc, hce, hrb, htb, hrn, hep, hpl⟩ := hwf
  cases hg : s.getT tid with
  | none =>
    rw [errorFired_notFound s tid hg]
    exact ⟨hsc, hce, hrb, htb, hrn, hep, hpl⟩
  | some t =>
    cases hc : t.closedT with
    | true =>
      rw [errorFired_closedT s tid t hg hc]
      exact ⟨hsc, hce, hrb, htb, hrn, hep, hpl⟩
    | false =>
      have hes : s.es = some tid := by
        by_contra hne
        rw [hsc tid t hg hne] at hc
        exact Bool.noConfusion hc
      have hpend : s.pending = [] := hep tid hes
      have hclosed : s.closed = false := by
        cases hcl : s.closed
        · rfl
        · rw [hce hcl] at hes
          exact Option.noConfusion hes
      have hstale : ∀ (i : Nat) (t2 : Transport),
          (modifyAt s.transports tid Transport.close)[i]? = some t2 →
          t2.closedT = true := by
        intro i t2 ht2
        rcases modifyAt_cases ht2 with ⟨hic, h1⟩ | ⟨hic, t0, h0, rfl⟩
        · exact hsc i t2 h1
            (by rw [hes]; intro hcon; exact hic (Option.some.inj hcon).symm)
        · rfl
      have hbound : ∀ (i : Nat) (t2 : Transport),
          (modifyAt s.transports tid Transport.close)[i]? = some t2 →
          ∀ p ∈ t2.listeners, p.2 < s.nextEntryId := by
        intro i t2 ht2 p hp
        rcases modifyAt_cases ht2 with ⟨_, h1⟩ | ⟨_, t0, h0, rfl⟩
        · exact htb i t2 h1 p hp
        · exact htb i t0 h0 p hp
      cases hr : s.retryCfg with
      | none =>
        rw [errorFired_active_noRetry s tid t hg hc hclosed hr]
        refine ⟨?_, fun _ => rfl, ?_, ?_, ?_, ?_, ?_⟩
        · intro i t2 ht2 _
          simp only [updateCur_transports_some Transport.close hes] at ht2
          exact hstale i t2 ht2
        · simp only [updateCur_listeners, updateCur_nextEntryId]
          exact hrb
        · intro i t2 ht2 p hp
          simp only [updateCur_transports_some Transport.close hes] at ht2
          simp only [updateCur_nextEntryId]
          exact hbound i t2 ht2 p hp
        · simp only [updateCur_listeners]
          exact hrn
        · intro i hcon
          exact Option.noConfusion hcon
        · simp only [updateCur_pending]
          exact hpl
      | some cfg =>
        rw [errorFired_active_retry s tid t cfg hg hc hclosed hr]
        refine ⟨?_, fun _ => rfl, ?_, ?_, ?_, ?_, ?_⟩
        · intro i t2 ht2 _
          simp only [updateCur_transports_some Transport.close hes] at ht2
          exact hstale i t2 ht2
        · simp only [updateCur_listeners, updateCur_nextEntryId]
          exact hrb
        · intro i t2 ht2 p hp
          simp only [updateCur_transports_some Transport.close hes] at ht2
          simp only [updateCur_nextEntryId]
          exact hbound i t2 ht2 p hp
        · simp only [updateCur_listeners]
          exact hrn
        · intro i hcon
          exact Option.noConfusion hcon
        · simp [hpend]

theorem wf_timerFired (s : TypedEventSource) (hwf : Wf s) : Wf s.timerFired := by
  obtain ⟨hsc, hce, hrb, htb, hrn, hep, hpl⟩ := hwf
  cases hp : s.pending with
  | nil =>
    rw [timerFired_nil s hp]
    exact ⟨hsc, hce, hrb, htb, hrn, hep, hpl⟩
  | cons d rest =>
    have hrest : rest = [] := by
      rw [hp] at hpl
      simp only [List.length_cons] at hpl
      exact List.eq_nil_of_length_eq_zero (by omega)
    have hes : s.es = none := by
      cases he : s.es with
      | none => rfl
      | some i =>
        exfalso
        have := hep i he
        rw [hp] at this
        exact List.noConfusion this
    rw [timerFired_cons s d rest hp]
    apply wf_connect
    · exact ⟨hsc, hce, hrb, htb, hrn, fun i _ => hrest, by simp [hrest]⟩
    · exact hes
    · exact hrest

theorem wf_step (parse : String → Option JSVal) (s : TypedEventSource) (a : Step)
    (hwf : Wf s) : Wf (s.step parse a) := by
  cases a with
  | error tid => exact wf_errorFired s tid hwf
  | sigOpen tid => exact wf_openFired s tid hwf
  | timer => exact wf_timerFired s hwf
  | close => exact wf_close s hwf
  | sub ty => exact wf_on s ty hwf
  | unsub h => exact wf_stop s h hwf
  | msg tid ty d => exact wf_deliver parse s tid ty d hwf

theorem wf_run (parse : String → Option JSVal) (s : TypedEventSource)
    (steps : List Step) (hwf : Wf s) : Wf (s.run parse steps) := by
  induction steps generalizing s with
  | nil => exact hwf
  | cons a rest ih => exact ih (s.step parse a) (wf_step parse s a hwf)

theorem connect_closed (s : TypedEventSource) (h : s.closed = true) :
    s.connect = s := by
  unfold TypedEventSource.connect
  rw [if_pos (by simp [h])]

theorem close_closed (s : TypedEventSource) : s.close.closed = true := rfl

theorem close_es (s : TypedEventSource) : s.close.es = none := rfl

/-- once the manager is closed, no stimulus changes the number of
transport instances or the invocation log, and the manager stays
closed. -/
theorem step_closed (parse : String → Option JSVal) (s : TypedEventSource) (a : Step)
    (hwf : Wf s) (hc : s.closed = true) :
    (s.step parse a).closed = true ∧
    (s.step parse a).transports.length = s.transports.length ∧
    (s.step parse a).invocations = s.invocations := by
  obtain ⟨hsc, hce, hrb, htb, hrn, hep, hpl⟩ := hwf
  have hes : s.es = none := hce hc
  have hallT : ∀ (i : Nat) (t : Transport), s.transports[i]? = some t →
      t.closedT = true :=
    fun i t h => hsc i t h (by rw [hes]; exact fun hcon => Option.noConfusion hcon)
  cases a with
  | error tid =>
    simp only [TypedEventSource.step]
    cases hg : s.getT tid with
    | none =>
      rw [errorFired_notFound s tid hg]
      exact ⟨hc, rfl, rfl⟩
    | some t =>
      rw [errorFired_closedT s tid t hg (hallT tid t hg)]
      exact ⟨hc, rfl, rfl⟩
  | sigOpen tid =>
    simp only [TypedEventSource.step]
    cases hg : s.getT tid with
    | none =>
      rw [openFired_notFound s tid hg]
      exact ⟨hc, rfl, rfl⟩
    | some t =>
      rw [openFired_closedT s tid t hg (hallT tid t hg)]
      exact ⟨hc, rfl, rfl⟩
  | timer =>
    simp only [TypedEventSource.step]
    cases hp : s.pending with
    | nil =>
      rw [timerFired_nil s hp]
      exact ⟨hc, rfl, rfl⟩
    | cons d rest =>
      rw [timerFired_cons s d rest hp, connect_closed { s with pending := rest } hc]
      exact ⟨hc, rfl, rfl⟩
  | close =>
    simp only [TypedEventSource.step]
    rw [close_eq_none s hes]
    exact ⟨rfl, rfl, rfl⟩
  | sub ty =>
    simp only [TypedEventSource.step]
    rw [on_snd_none s ty hes]
    exact ⟨hc, rfl, rfl⟩
  | unsub h =>
    simp only [TypedEventSource.step]
    rw [stop_none s h hes]
    exact ⟨hc, rfl, rfl⟩
  | msg tid ty d =>
    simp only [TypedEventSource.step]
    cases hg : s.getT tid with
    | none =>
      rw [deliver_none parse s tid ty d hg]
      exact ⟨hc, rfl, rfl⟩
    | some t =>
      rw [deliver_some parse s tid ty d hg]
      refine ⟨hc, rfl, ?_⟩
      have hdel : t.deliver parse ty d = [] := by
        unfold Transport.deliver
        rw [if_pos (hallT tid t hg)]
      simp [hdel]

/-- iterated version of `step_closed` over any stimulus sequence. -/
theorem run_closed (parse : String → Option JSVal) (s : TypedEventSource)
    (post : List Step) (hwf : Wf s) (hc : s.closed = true) :
    (s.run parse post).closed = true ∧
    (s.run parse post).transports.length = s.transports.length ∧
    (s.run parse post).invocations = s.invocations := by
  induction post generalizing s with
  | nil => exact ⟨hc, rfl, rfl⟩
  | cons a rest ih =>
    obtain ⟨h1, h2, h3⟩ := step_closed parse s a hwf hc
    obtain ⟨g1, g2, g3⟩ := ih (s.step parse a) (wf_step parse s a hwf) h1
    exact ⟨g1, g2.trans h2, g3.trans h3⟩

/-! Auxiliary facts for the retry-disabled behaviour. -/

theorem c4_step (parse : String → Option JSVal) (s : TypedEventSource) (a : Step)
    (hlen : s.transports.length = 1) (hpend : s.pending = [])
    (hcl : s.closed = false) (hr : s.retryCfg = none)
    (hes : s.es = none ∨ (s.es = some 0 ∧
      ∃ t, s.getT 0 = some t ∧ t.closedT = false))
    (ha : a = Step.timer ∨ ∃ tid, a = Step.error tid) :
    (s.step parse a).transports.length = 1 ∧ (s.step parse a).pending = [] ∧
    (s.step parse a).closed = false ∧ (s.step parse a).retryCfg = none ∧
    ((s.step parse a).es = none ∨ ((s.step parse a).es = some 0 ∧
      ∃ t, (s.step parse a).getT 0 = some t ∧ t.closedT = false)) ∧
    (s.es = none → (s.step parse a).es = none) ∧
    (a = Step.error 0 → (s.step parse a).es = none) := by
  obtain ⟨t0, hl⟩ := List.length_eq_one.mp hlen
  rcases ha with rfl | ⟨tid, rfl⟩
  · simp only [TypedEventSource.step, timerFired_nil s hpend]
    exact ⟨hlen, hpend, hcl, hr, hes, fun h => h, fun h => Step.noConfusion h⟩
  · simp only [TypedEventSource.step]
    cases tid with
    | zero =>
      have hg : s.getT 0 = some t0 := by
        rw [TypedEventSource.getT, hl]
        rfl
      cases hc0 : t0.closedT with
      | true =>
        have hesn : s.es = none := by
          rcases hes with h | ⟨_, t2, hget, hlive⟩
          · exact h
          · rw [hg] at hget
            cases hget
            rw [hc0] at hlive
            exact absurd hlive (by simp)
        rw [errorFired_closedT s 0 t0 hg hc0]
        exact ⟨hlen, hpend, hcl, hr, Or.inl hesn, fun h => h, fun _ => hesn⟩
      | false =>
        rw [errorFired_active_noRetry s 0 t0 hg hc0 hcl hr]
        have hlen2 : (s.updateCur Transport.close).transports.length = 1 := by
          cases hse : s.es with
          | none => rw [updateCur_transports_none Transport.close hse]; exact hlen
          | some cur =>
            rw [updateCur_transports_some Transport.close hse, length_modifyAt]
            exact hlen
        refine ⟨hlen2, ?_, ?_, ?_, Or.inl rfl, fun _ => rfl, fun _ => rfl⟩
        · simp only [updateCur_pending]
          exact hpend
        · simp only [updateCur_closed]
          exact hcl
        · simp only [updateCur_retryCfg]
          exact hr
    | succ n =>
      have hg : s.getT (n + 1) = none := by
        rw [TypedEventSource.getT, hl]
        rfl
      rw [errorFired_notFound s (n + 1) hg]
      refine ⟨hlen, hpend, hcl, hr, hes, fun h => h, fun h => ?_⟩
      cases h

theorem c4_run (parse : String → Option JSVal) (s : TypedEventSource)
    (steps : List Step)
    (hsteps : ∀ a ∈ steps, a = Step.timer ∨ ∃ tid, a = Step.error tid)
    (hlen : s.transports.length = 1) (hpend : s.pending = [])
    (hcl : s.closed = false) (hr : s.retryCfg = none)
    (hes : s.es = none ∨ (s.es = some 0 ∧
      ∃ t, s.getT 0 = some t ∧ t.closedT = false)) :
    (s.run parse steps).transports.length = 1 ∧
    (s.run parse steps).closed = false ∧
    (s.es = none → (s.run parse steps).es = none) ∧
    (Step.error 0 ∈ steps → (s.run parse steps).es = none) := by
  induction steps generalizing s with
  | nil =>
    exact ⟨hlen, hcl, fun h => h, fun h => absurd h (List.not_mem_nil _)⟩
  | cons a rest ih =>
    have ha := hsteps a (List.mem_cons_self a rest)
    obtain ⟨l1, p1, c1, r1, e1, imp1, imp2⟩ :=
      c4_step parse s a hlen hpend hcl hr hes ha
    obtain ⟨L, C, IMP, MEM⟩ :=
      ih (s.step parse a) (fun b hb => hsteps b (List.mem_cons_of_mem a hb))
        l1 p1 c1 r1 e1
    refine ⟨L, C, fun h0 => IMP (imp1 h0), fun hmem => ?_⟩
    rcases List.mem_cons.mp hmem with heq | hmem2
    · exact IMP (imp2 heq.symm)
    · exact MEM hmem2

/-- C4: with retry explicitly disabled (`retry: null`), the constructor
creates exactly one transport instance, and under any sequence of
transport error events and timer firings no second transport instance is
ever created; once the single transport has errored the manager is left
without a transport (stalled) but is not Closed. -/
theorem retry_null_never_reconnects (parse : String → Option JSVal)
    (steps : List Step)
    (hsteps : ∀ a ∈ steps, a = Step.timer ∨ ∃ tid, a = Step.error tid) :
    (TypedEventSource.construct (some none)).transports.length = 1 ∧
    ((TypedEventSource.construct (some none)).run parse steps).transports.length = 1 ∧
    ((TypedEventSource.construct (some none)).run parse steps).closed = false ∧
    (Step.error 0 ∈ steps →
      ((TypedEventSource.construct (some none)).run parse steps).es = none) := by
  obtain ⟨L, C, _, MEM⟩ :=
    c4_run parse (TypedEventSource.construct (some none)) steps hsteps
      rfl rfl rfl rfl
      (Or.inr ⟨rfl, ⟨false, []⟩, rfl, rfl⟩)
  exact ⟨rfl, L, C, MEM⟩

/-- witness for C4 at the concrete scenario of the repository test
(error on the first transport, then flushing timers). -/
theorem retry_null_never_reconnects_witness :
    ((TypedEventSource.construct (some none)).run (fun _ => none)
      [Step.error 0, Step.timer]).transports.length = 1 ∧
    ((TypedEventSource.construct (some none)).run (fun _ => none)
      [Step.error 0, Step.timer]).es = none :=
  have h := retry_null_never_reconnects (fun _ => none) [Step.error 0, Step.timer]
    (by
      intro a ha
      rcases List.mem_cons.mp ha with rfl | ha2
      · exact Or.inr ⟨0, rfl⟩
      · rcases List.mem_cons.mp ha2 with rfl | ha3
        · exact Or.inl rfl
        · exact absurd ha3 (List.not_mem_nil a))
  ⟨h.2.1, h.2.2.2 (List.mem_cons_self _ _)⟩

/-- C1 (divergence evidence): with the default retry configuration, after
two consecutive transport errors separated only by the reconnect timer
firing - no open signal in between - the attempt counter observed while
handling the second error is 1, not 2, and the delay scheduled for it is
500, not 1000: `connect()` resets the counter to 0 on every reconnect
(src/src/typedEventSource.ts line 65), so consecutive errors never
escalate the backoff. -/
theorem attempt_counter_resets_on_reconnect :
    ((TypedEventSource.construct none).run (fun _ => none)
        [Step.error 0, Step.timer, Step.error 1]).attempt = 1 ∧
    ((TypedEventSource.construct none).run (fun _ => none)
        [Step.error 0, Step.timer, Step.error 1]).attempt ≠ 2 ∧
    ((TypedEventSource.construct none).run (fun _ => none)
        [Step.error 0, Step.timer, Step.error 1]).pending = [500] := by
  refine ⟨rfl, by decide, rfl⟩

/-- C3: whenever a transport error is handled with retry enabled and the
manager not closed, the attempt counter is incremented to n = attempt + 1
and the scheduled reconnect delay is exactly
`min((base ?? 500) * 2^(n-1), max ?? 30000)`; with the default
configuration this delay is 500 for n = 1, 1000 for n = 2, 30000 (capped)
for n = 7, and it never exceeds the configured maximum for any n. -/
theorem backoff_delay_formula (s : TypedEventSource) (tid : Nat) (t : Transport)
    (cfg : RetryCfg) (hg : s.getT tid = some t) (hc : t.closedT = false)
    (hmc : s.closed = false) (hr : s.retryCfg = some cfg) :
    (s.errorFired tid).attempt = s.attempt + 1 ∧
    (s.errorFired tid).pending
      = s.pending ++ [backoffDelay cfg (s.attempt + 1)] ∧
    backoffDelay ⟨some 500, some 30000⟩ 1 = 500 ∧
    backoffDelay ⟨some 500, some 30000⟩ 2 = 1000 ∧
    backoffDelay ⟨some 500, some 30000⟩ 7 = 30000 ∧
    ∀ n : Nat, backoffDelay cfg n ≤ cfg.max?.getD 30000 := by
  rw [errorFired_active_retry s tid t cfg hg hc hmc hr]
  refine ⟨rfl, ?_, by decide, by decide, by decide, ?_⟩
  · simp only [updateCur_pending]
  · intro n
    exact Nat.min_le_right _ _

/-- witness for C3 on the freshly constructed manager with the default
retry configuration. -/
theorem backoff_delay_formula_witness :
    ((TypedEventSource.construct none).errorFired 0).pending
      = (TypedEventSource.construct none).pending
        ++ [backoffDelay ⟨some 500, some 30000⟩
              ((TypedEventSource.construct none).attempt + 1)] ∧
    backoffDelay ⟨some 500, some 30000⟩ 7 = 30000 :=
  have h := backoff_delay_formula (TypedEventSource.construct none) 0
    ⟨false, []⟩ ⟨some 500, some 30000⟩ rfl rfl rfl rfl
  ⟨h.2.1, h.2.2.2.2.1⟩

/-- C2: after `close()` has been called on a manager, no further stimulus -
including message delivery attempted through any lingering transport
reference (all of which `close` and the error handler have closed) -
produces a single handler invocation, and no pending or future timer ever
creates a new transport instance. -/
theorem close_stops_dispatch_and_reconnect (parse : String → Option JSVal)
    (retry? : Option (Option RetryCfg)) (pre post : List Step) :
    ((((TypedEventSource.construct retry?).run parse pre).close).run parse post).invocations
      = (((TypedEventSource.construct retry?).run parse pre).close).invocations ∧
    ((((TypedEventSource.construct retry?).run parse pre).close).run parse post).transports.length
      = (((TypedEventSource.construct retry?).run parse pre).close).transports.length := by
  have hwf : Wf (((TypedEventSource.construct retry?).run parse pre).close) :=
    wf_close _ (wf_run parse _ pre (wf_construct retry?))
  obtain ⟨_, h2, h3⟩ := run_closed parse _ post hwf (close_closed _)
  exact ⟨h3, h2⟩

/-- witness for C2: after an error has scheduled a reconnect timer and the
manager is then closed, a late message on the stale first transport plus
the timer firing deliver nothing and create no transport. -/
theorem close_stops_dispatch_and_reconnect_witness :
    ((((TypedEventSource.construct none).run (fun _ => none) [Step.sub "x", Step.error 0]).close).run
        (fun _ => none) [Step.msg 0 "x" (JSVal.jbool true), Step.timer]).invocations
      = (((TypedEventSource.construct none).run (fun _ => none) [Step.sub "x", Step.error 0]).close).invocations ∧
    ((((TypedEventSource.construct none).run (fun _ => none) [Step.sub "x", Step.error 0]).close).run
        (fun _ => none) [Step.msg 0 "x" (JSVal.jbool true), Step.timer]).transports.length
      = (((TypedEventSource.construct none).run (fun _ => none) [Step.sub "x", Step.error 0]).close).transports.length :=
  close_stops_dispatch_and_reconnect (fun _ => none) none [Step.sub "x", Step.error 0]
    [Step.msg 0 "x" (JSVal.jbool true), Step.timer]

/-- C10: calling `on()` after `close()` is harmless and inert: the entry
is still appended to the registry (the call is total, it cannot throw), no
transport is touched because none is referenced after close, the returned
stopListening handle removes exactly the entry again, and under any
further stimuli the new handler is never invoked and no transport is ever
created. -/
theorem on_after_close_is_safe (parse : String → Option JSVal)
    (retry? : Option (Option RetryCfg)) (pre : List Step) (ty : String)
    (sc : TypedEventSource)
    (hsc : sc = ((TypedEventSource.construct retry?).run parse pre).close) :
    (sc.on ty).2.listeners = sc.listeners ++ [(ty, sc.nextEntryId)] ∧
    (sc.on ty).2.transports = sc.transports ∧
    ((sc.on ty).2.stopListening (sc.on ty).1).listeners = sc.listeners ∧
    (∀ post : List Step,
      ((sc.on ty).2.run parse post).invocations = (sc.on ty).2.invocations ∧
      ((sc.on ty).2.run parse post).transports.length
        = (sc.on ty).2.transports.length) := by
  have hwfc : Wf sc := by
    rw [hsc]
    exact wf_close _ (wf_run parse _ pre (wf_construct retry?))
  have hes : sc.es = none := by
    rw [hsc]
    exact close_es _
  have hcl : sc.closed = true := by
    rw [hsc]
    exact close_closed _
  have h1 := on_snd_none sc ty hes
  have hfilter : sc.listeners.filter
      (fun q => decide (q ≠ (ty, sc.nextEntryId))) = sc.listeners := by
    apply List.filter_eq_self.mpr
    intro q hq
    have hb := hwfc.regBound q hq
    simp only [decide_eq_true_eq]
    intro he
    rw [he] at hb
    simp at hb
  refine ⟨by rw [h1], by rw [h1], ?_, ?_⟩
  · rw [on_fst, h1]
    rw [stop_none
        { sc with
          listeners := sc.listeners ++ [(ty, sc.nextEntryId)],
          nextEntryId := sc.nextEntryId + 1 }
        (ty, sc.nextEntryId) hes]
    simp only [List.filter_append, hfilter]
    simp
  · intro post
    have hwf2 : Wf (sc.on ty).2 := wf_on sc ty hwfc
    have hc2 : (sc.on ty).2.closed = true := by
      rw [h1]
      exact hcl
    obtain ⟨_, h2, h3⟩ := run_closed parse _ post hwf2 hc2
    exact ⟨h3, h2⟩

/-- witness for C10 on a freshly closed manager. -/
theorem on_after_close_is_safe_witness :
    (((TypedEventSource.construct none).run (fun _ => none) []).close.on "x").2.transports
      = ((TypedEventSource.construct none).run (fun _ => none) []).close.transports ∧
    ((((TypedEventSource.construct none).run (fun _ => none) []).close.on "x").2.stopListening
        (((TypedEventSource.construct none).run (fun _ => none) []).close.on "x").1).listeners
      = ((TypedEventSource.construct none).run (fun _ => none) []).close.listeners :=
  have h := on_after_close_is_safe (fun _ => none) none [] "x"
    ((TypedEventSource.construct none).run (fun _ => none) []).close rfl
  ⟨h.2.1, h.2.2.1⟩

theorem filterMap_none {α β : Type} (l : List α) :
    l.filterMap (fun _ => (none : Option β)) = [] := by
  induction l with
  | nil => rfl
  | cons a rest ih => simp [List.filterMap_cons, ih]

/-- C7: the decoder only JSON-parses text payloads - a parse that throws
is caught and yields null, so the handler is not invoked and nothing
escapes the dispatch path; a successful non-null parse reaches the
handler; a non-text payload is passed through as-is without re-parsing;
and delivery touches nothing in the manager except the invocation log
(parseEvent itself is a pure function of its input). -/
theorem parse_failure_suppresses_dispatch (parse : String → Option JSVal) :
    (∀ s : String, parse s = none → wrappedDispatch parse (JSVal.jstr s) = none) ∧
    (∀ (s : String) (v : JSVal), parse s = some v → v.isNullish = false →
      wrappedDispatch parse (JSVal.jstr s) = some v) ∧
    (∀ d : JSVal, d.isString = false → parseEvent parse d = d) ∧
    (∀ (st : TypedEventSource) (tid : Nat) (ty : String) (d : JSVal),
      (st.deliver parse tid ty d).listeners = st.listeners ∧
      (st.deliver parse tid ty d).transports = st.transports ∧
      (st.deliver parse tid ty d).es = st.es ∧
      (st.deliver parse tid ty d).closed = st.closed ∧
      (st.deliver parse tid ty d).attempt = st.attempt ∧
      (st.deliver parse tid ty d).pending = st.pending) := by
  refine ⟨?_, ?_, ?_, ?_⟩
  · intro s hs
    simp [wrappedDispatch, parseEvent, hs, JSVal.isNullish]
  · intro s v hs hv
    simp [wrappedDispatch, parseEvent, hs, hv]
  · intro d hd
    cases d with
    | jstr s => simp [JSVal.isString] at hd
    | jnull => rfl
    | jundef => rfl
    | jbool b => rfl
    | jnum n => rfl
    | jobj fields => rfl
  · intro st tid ty d
    cases hg : st.getT tid with
    | none =>
      rw [deliver_none parse st tid ty d hg]
      exact ⟨rfl, rfl, rfl, rfl, rfl, rfl⟩
    | some t =>
      rw [deliver_some parse st tid ty d hg]
      exact ⟨rfl, rfl, rfl, rfl, rfl, rfl⟩

/-- witness for C7: a throwing parse suppresses dispatch, a successful
parse reaches the handler, and a non-text payload passes through. -/
theorem parse_failure_suppresses_dispatch_witness :
    wrappedDispatch (fun _ => none) (JSVal.jstr "bad") = none ∧
    wrappedDispatch (fun _ => some (JSVal.jnum 1)) (JSVal.jstr "1")
      = some (JSVal.jnum 1) ∧
    parseEvent (fun _ => none) (JSVal.jbool true) = JSVal.jbool true :=
  ⟨(parse_failure_suppresses_dispatch (fun _ => none)).1 "bad" rfl,
   (parse_failure_suppresses_dispatch (fun _ => some (JSVal.jnum 1))).2.1
     "1" (JSVal.jnum 1) rfl rfl,
   (parse_failure_suppresses_dispatch (fun _ => none)).2.2.1
     (JSVal.jbool true) rfl⟩

/-- C9: a decoded null never reaches a handler - whether the text payload
parses successfully to the JSON value null, or the payload is the
non-text value null or undefined - exactly as when decoding fails; and a
delivery whose decoded value is nullish leaves the invocation log
unchanged. -/
theorem null_decode_suppresses_dispatch (parse : String → Option JSVal) :
    (∀ s : String, parse s = some JSVal.jnull →
      wrappedDispatch parse (JSVal.jstr s) = none) ∧
    wrappedDispatch parse JSVal.jnull = none ∧
    wrappedDispatch parse JSVal.jundef = none ∧
    (∀ (st : TypedEventSource) (tid : Nat) (ty : String) (d : JSVal),
      (parseEvent parse d).isNullish = true →
      (st.deliver parse tid ty d).invocations = st.invocations) := by
  refine ⟨?_, ?_, ?_, ?_⟩
  · intro s hs
    simp [wrappedDispatch, parseEvent, hs, JSVal.isNullish]
  · simp [wrappedDispatch, parseEvent, JSVal.isNullish]
  · simp [wrappedDispatch, parseEvent, JSVal.isNullish]
  · intro st tid ty d hn
    have hw : wrappedDispatch parse d = none := by
      simp [wrappedDispatch, hn]
    cases hg : st.getT tid with
    | none =>
      rw [deliver_none parse st tid ty d hg]
    | some t =>
      rw [deliver_some parse st tid ty d hg]
      simp [Transport.deliver, hw, filterMap_none]

/-- witness for C9: the payloads null and undefined, and a text payload
parsed to the JSON value null, all produce zero handler invocations. -/
theorem null_decode_suppresses_dispatch_witness :
    wrappedDispatch (fun _ => some JSVal.jnull) (JSVal.jstr "null") = none ∧
    wrappedDispatch (fun _ => some JSVal.jnull) JSVal.jnull = none ∧
    wrappedDispatch (fun _ => some JSVal.jnull) JSVal.jundef = none ∧
    (((TypedEventSource.construct none).run (fun _ => some JSVal.jnull)
        [Step.sub "x"]).deliver (fun _ => some JSVal.jnull) 0 "x" JSVal.jnull).invocations
      = ((TypedEventSource.construct none).run (fun _ => some JSVal.jnull)
          [Step.sub "x"]).invocations :=
  have h := null_decode_suppresses_dispatch (fun _ => some JSVal.jnull)
  ⟨h.1 "null" rfl, h.2.1, h.2.2.1, h.2.2.2 _ 0 "x" JSVal.jnull rfl⟩

/-- C8: calling the adapter on a transport already in the terminal CLOSED
state signals an error synchronously - thrown when no errorHandler was
supplied (aborting before any attachment), passed to the errorHandler
otherwise - and in either case no listener that can later receive an
event results: the transport stays closed and dispatches nothing. -/
theorem adapter_rejects_closed_transport (parse : String → Option JSVal)
    (es : Transport) (eventName : String) (eid : Nat) (hasErrorHandler : Bool)
    (hc : es.closedT = true) :
    ((addTypedDataEventListener es eventName eid hasErrorHandler).threw = true ∨
     (addTypedDataEventListener es eventName eid hasErrorHandler).errorSignalled = true) ∧
    ((addTypedDataEventListener es eventName eid hasErrorHandler).threw = true →
      (addTypedDataEventListener es eventName eid hasErrorHandler).es = es) ∧
    (∀ (ty : String) (d : JSVal),
      (addTypedDataEventListener es eventName eid hasErrorHandler).es.deliver
        parse ty d = []) := by
  unfold addTypedDataEventListener
  rw [if_pos hc]
  cases hasErrorHandler with
  | false =>
    rw [if_neg (by simp)]
    refine ⟨Or.inl rfl, fun _ => rfl, ?_⟩
    intro ty d
    unfold Transport.deliver
    rw [if_pos hc]
  | true =>
    rw [if_pos rfl]
    refine ⟨Or.inr rfl, fun hth => Bool.noConfusion hth, ?_⟩
    intro ty d
    unfold Transport.deliver
    rw [if_pos (show (es.addListener eventName eid).closedT = true from
      (addListener_closedT es eventName eid).trans hc)]

/-- witness for C8 on a concrete closed transport, in both the throwing
form and the errorHandler form. -/
theorem adapter_rejects_closed_transport_witness :
    ((addTypedDataEventListener ⟨true, []⟩ "msg" 0 false).threw = true ∨
     (addTypedDataEventListener ⟨true, []⟩ "msg" 0 false).errorSignalled = true) ∧
    ((addTypedDataEventListener ⟨true, []⟩ "msg" 0 true).threw = true ∨
     (addTypedDataEventListener ⟨true, []⟩ "msg" 0 true).errorSignalled = true) ∧
    (addTypedDataEventListener ⟨true, []⟩ "msg" 0 true).es.deliver
      (fun _ => none) "msg" (JSVal.jbool true) = [] :=
  ⟨(adapter_rejects_closed_transport (fun _ => none) ⟨true, []⟩ "msg" 0 false rfl).1,
   (adapter_rejects_closed_transport (fun _ => none) ⟨true, []⟩ "msg" 0 true rfl).1,
   (adapter_rejects_closed_transport (fun _ => none) ⟨true, []⟩ "msg" 0 true rfl).2.2
     "msg" (JSVal.jbool true)⟩

/-- closed form of a timer-fired reconnect on a well-formed, not-closed
manager with a pending timer: the new transport instance carries exactly
the registry entries (the same decode-and-dispatch closures, by identity),
and becomes current. -/
theorem timerFired_reconnect (s : TypedEventSource) (hwf : Wf s)
    (hcl : s.closed = false) (d : Nat) (rest : List Nat)
    (hp : s.pending = d :: rest) :
    s.timerFired = { s with
      pending := rest,
      transports := s.transports ++ [⟨false, s.listeners⟩],
      es := some s.transports.length,
      attempt := 0 } := by
  rw [timerFired_cons s d rest hp]
  rw [connect_eq { s with pending := rest } hcl (List.Nodup.of_map _ hwf.regNodup)]

/-- C5: a timer-fired reconnect creates a fresh transport and re-attaches
every entry currently in the registry to it, reusing the same entry
identities, so a stopListening handle obtained before the reconnect still
removes exactly its entry from both the registry and the new transport;
and an entry registered through on() while no transport is live persists
in the registry, touches no transport, and is attached to the transport
the next reconnect creates. -/
theorem reconnect_reattaches_registry (s : TypedEventSource) (ty : String)
    (hwf : Wf s) :
    (∀ (d : Nat) (rest : List Nat), s.closed = false → s.pending = d :: rest →
      s.timerFired.es = some s.transports.length ∧
      s.timerFired.getT s.transports.length = some ⟨false, s.listeners⟩ ∧
      ∀ h ∈ s.listeners,
        (s.timerFired.stopListening h).listeners
          = s.listeners.filter (fun q => decide (q ≠ h)) ∧
        (s.timerFired.stopListening h).getT s.transports.length
          = some ⟨false, s.listeners.filter (fun q => decide (q ≠ h))⟩) ∧
    (s.es = none →
      (s.on ty).2.listeners = s.listeners ++ [(ty, s.nextEntryId)] ∧
      (s.on ty).2.transports = s.transports ∧
      (∀ (d : Nat) (rest : List Nat), s.closed = false → s.pending = d :: rest →
        ((s.on ty).2.timerFired).getT s.transports.length
          = some ⟨false, s.listeners ++ [(ty, s.nextEntryId)]⟩)) := by
  constructor
  · intro d rest hcl hp
    rw [timerFired_reconnect s hwf hcl d rest hp]
    refine ⟨rfl, getElem?_concat_len _ _, ?_⟩
    intro h hmem
    rw [stop_some
        { s with
          pending := rest,
          transports := s.transports ++ [⟨false, s.listeners⟩],
          es := some s.transports.length,
          attempt := 0 }
        h rfl]
    refine ⟨rfl, ?_⟩
    show (modifyAt (s.transports ++ [⟨false, s.listeners⟩]) s.transports.length
        (fun t => t.removeListener h.1 h.2))[s.transports.length]? = _
    rw [getElem?_modifyAt, if_pos rfl, getElem?_concat_len]
    simp [Transport.removeListener]
  · intro hes
    have h1 := on_snd_none s ty hes
    refine ⟨by rw [h1], by rw [h1], ?_⟩
    intro d rest hcl hp
    have hwf2 : Wf (s.on ty).2 := wf_on s ty hwf
    have hcl2 : (s.on ty).2.closed = false := by rw [h1]; exact hcl
    have hp2 : (s.on ty).2.pending = d :: rest := by rw [h1]; exact hp
    rw [timerFired_reconnect (s.on ty).2 hwf2 hcl2 d rest hp2]
    rw [h1]
    exact getElem?_concat_len _ _

/-- witness for C5 on a stalled manager (one listener registered, one
error handled, reconnect timer pending). -/
theorem reconnect_reattaches_registry_witness :
    (((TypedEventSource.construct none).run (fun _ => none)
        [Step.sub "x", Step.error 0]).timerFired).getT
      ((TypedEventSource.construct none).run (fun _ => none)
        [Step.sub "x", Step.error 0]).transports.length
      = some ⟨false, ((TypedEventSource.construct none).run (fun _ => none)
          [Step.sub "x", Step.error 0]).listeners⟩ ∧
    ((((TypedEventSource.construct none).run (fun _ => none)
        [Step.sub "x", Step.error 0]).on "y").2).listeners
      = ((TypedEventSource.construct none).run (fun _ => none)
          [Step.sub "x", Step.error 0]).listeners
        ++ [("y", ((TypedEventSource.construct none).run (fun _ => none)
              [Step.sub "x", Step.error 0]).nextEntryId)] :=
  have h := reconnect_reattaches_registry
    ((TypedEventSource.construct none).run (fun _ => none)
      [Step.sub "x", Step.error 0]) "y"
    (wf_run (fun _ => none) (TypedEventSource.construct none)
      [Step.sub "x", Step.error 0] (wf_construct none))
  ⟨(h.1 500 [] rfl rfl).2.1, (h.2 rfl).1⟩

theorem modifyAt_eq_self {l : List Transport} {i : Nat} {f : Transport → Transport}
    (h : ∀ t, l[i]? = some t → f t = t) : modifyAt l i f = l := by
  induction l generalizing i with
  | nil => rfl
  | cons a as ih =>
    cases i with
    | zero =>
      simp only [modifyAt]
      rw [h a (by simp)]
    | succ i =>
      simp only [modifyAt]
      rw [ih]
      intro t ht
      exact h t (by simpa using ht)

theorem filterMap_some_map {α β : Type} (l : List α) (g : α → β) :
    l.filterMap (fun a => some (g a)) = l.map g := by
  induction l with
  | nil => rfl
  | cons a rest ih => simp [List.filterMap_cons, ih]

theorem countP_map_own {α β : Type} (l : List α) (g : α → β) (p : β → Bool) :
    (l.map g).countP p = l.countP (fun a => p (g a)) := by
  induction l with
  | nil => rfl
  | cons a rest ih => simp [List.countP_cons, ih]

theorem on_es (s : TypedEventSource) (ty : String) : (s.on ty).2.es = s.es := by
  unfold TypedEventSource.on
  rw [updateCur_es]

theorem on_nextEntryId (s : TypedEventSource) (ty : String) :
    (s.on ty).2.nextEntryId = s.nextEntryId + 1 := by
  unfold TypedEventSource.on
  rw [updateCur_nextEntryId]

theorem on_listeners (s : TypedEventSource) (ty : String) :
    (s.on ty).2.listeners = s.listeners ++ [(ty, s.nextEntryId)] := by
  unfold TypedEventSource.on
  rw [updateCur_listeners]

theorem on_transports_some (s : TypedEventSource) (ty : String) {cur : Nat}
    (hes : s.es = some cur) :
    (s.on ty).2.transports
      = modifyAt s.transports cur (fun t => t.addListener ty s.nextEntryId) := by
  rw [on_snd_some s ty hes]

theorem stop_es (s : TypedEventSource) (h : String × Nat) :
    (s.stopListening h).es = s.es := by
  unfold TypedEventSource.stopListening
  rw [updateCur_es]

theorem stop_listeners (s : TypedEventSource) (h : String × Nat) :
    (s.stopListening h).listeners
      = s.listeners.filter (fun q => decide (q ≠ h)) := by
  unfold TypedEventSource.stopListening
  rw [updateCur_listeners]

theorem stop_transports_some (s : TypedEventSource) (h : String × Nat) {cur : Nat}
    (hes : s.es = some cur) :
    (s.stopListening h).transports
      = modifyAt s.transports cur (fun t => t.removeListener h.1 h.2) := by
  rw [stop_some s h hes]

/-- C6: the handle returned by on() removes exactly its own entry: with
two handlers registered on the same event name through on() and the first
one detached via its stopListening handle, delivering a decodable message
on that event on the live transport invokes the second handler exactly
once and the first zero times; calling the same stopListening handle a
second time changes nothing. -/
theorem stopListening_removes_only_its_entry
    (parse : String → Option JSVal) (s s3 : TypedEventSource) (ty : String)
    (d v : JSVal) (tid : Nat) (t : Transport)
    (hwf : Wf s) (hes : s.es = some tid) (ht : s.getT tid = some t)
    (hop : t.closedT = false) (hv : wrappedDispatch parse d = some v)
    (hs3 : s3 = (((s.on ty).2.on ty).2).stopListening (s.on ty).1) :
    ((s.on ty).1 = (ty, s.nextEntryId) ∧
     ((s.on ty).2.on ty).1 = (ty, s.nextEntryId + 1)) ∧
    (∃ D, (s3.deliver parse tid ty d).invocations = s3.invocations ++ D ∧
      D.countP (fun q => decide (q.1 = s.nextEntryId)) = 0 ∧
      D.countP (fun q => decide (q.1 = s.nextEntryId + 1)) = 1) ∧
    s3.stopListening (s.on ty).1 = s3 := by
  have htb2 := hwf.trBound tid t ht
  have hh1 : (s.on ty).1 = (ty, s.nextEntryId) := on_fst s ty
  have hh2 : ((s.on ty).2.on ty).1 = (ty, s.nextEntryId + 1) := by
    rw [on_fst, on_nextEntryId]
  rw [hh1] at hs3
  have hesA : (s.on ty).2.es = some tid := by rw [on_es]; exact hes
  have hesB : ((s.on ty).2.on ty).2.es = some tid := by rw [on_es]; exact hesA
  have hes3 : s3.es = some tid := by rw [hs3, stop_es]; exact hesB
  have htrA : (s.on ty).2.transports
      = modifyAt s.transports tid (fun t2 => t2.addListener ty s.nextEntryId) :=
    on_transports_some s ty hes
  have htrB : ((s.on ty).2.on ty).2.transports
      = modifyAt (s.on ty).2.transports tid
          (fun t2 => t2.addListener ty ((s.on ty).2.nextEntryId)) :=
    on_transports_some (s.on ty).2 ty hesA
  have htrC : s3.transports
      = modifyAt (((s.on ty).2.on ty).2).transports tid
          (fun t2 => t2.removeListener ty s.nextEntryId) := by
    rw [hs3]
    exact stop_transports_some (((s.on ty).2.on ty).2) (ty, s.nextEntryId) hesB
  have hgt3 : s3.getT tid
      = some (((t.addListener ty s.nextEntryId).addListener ty
          (s.nextEntryId + 1)).removeListener ty s.nextEntryId) := by
    rw [TypedEventSource.getT, htrC, htrB, htrA, on_nextEntryId]
    rw [getElem?_modifyAt, if_pos rfl, getElem?_modifyAt, if_pos rfl,
        getElem?_modifyAt, if_pos rfl]
    rw [show s.transports[tid]? = some t from ht]
    rfl
  have hA1 : t.addListener ty s.nextEntryId
      = { t with listeners := t.listeners ++ [(ty, s.nextEntryId)] } := by
    rw [Transport.addListener, if_neg]
    intro hmem
    have := htb2 _ hmem
    simp at this
  have hA2 : ({ t with listeners := t.listeners ++ [(ty, s.nextEntryId)] }
        : Transport).addListener ty (s.nextEntryId + 1)
      = { t with
          listeners := t.listeners ++ [(ty, s.nextEntryId), (ty, s.nextEntryId + 1)] } := by
    rw [Transport.addListener, if_neg]
    · simp
    · intro hmem
      rcases List.mem_append.mp hmem with hq | hq
      · have := htb2 _ hq
        simp at this
      · simp at hq
  have hR : ({ t with
        listeners := t.listeners ++ [(ty, s.nextEntryId), (ty, s.nextEntryId + 1)] }
        : Transport).removeListener ty s.nextEntryId
      = { t with listeners := t.listeners ++ [(ty, s.nextEntryId + 1)] } := by
    rw [Transport.removeListener]
    simp only [List.filter_append]
    rw [List.filter_eq_self.mpr]
    · simp
    · intro q hq
      have := htb2 q hq
      simp only [decide_eq_true_eq]
      intro he
      rw [he] at this
      simp at this
  have hgt3s : s3.getT tid
      = some ⟨t.closedT, t.listeners ++ [(ty, s.nextEntryId + 1)]⟩ := by
    rw [hgt3, hA1, hA2, hR]
  have hD : Transport.deliver parse
        ⟨t.closedT, t.listeners ++ [(ty, s.nextEntryId + 1)]⟩ ty d
      = (t.listeners.filter (fun q => decide (q.1 = ty))
          ++ [(ty, s.nextEntryId + 1)]).map (fun q => (q.2, v)) := by
    rw [Transport.deliver, if_neg (by simp [hop])]
    rw [hv]
    simp only [List.filter_append, Option.map_some']
    rw [filterMap_some_map]
    simp
  refine ⟨⟨hh1, hh2⟩, ?_, ?_⟩
  · refine ⟨(t.listeners.filter (fun q => decide (q.1 = ty))
        ++ [(ty, s.nextEntryId + 1)]).map (fun q => (q.2, v)), ?_, ?_, ?_⟩
    · rw [deliver_some parse s3 tid ty d hgt3s, hD]
    · rw [countP_map_own, List.countP_append]
      have z1 : (t.listeners.filter (fun q => decide (q.1 = ty))).countP
          (fun a => decide (((a.2, v) : Nat × JSVal).1 = s.nextEntryId)) = 0 := by
        apply List.countP_eq_zero.mpr
        intro q hq
        have := htb2 q (List.mem_of_mem_filter hq)
        simp only [decide_eq_true_eq]
        omega
      rw [z1]
      simp
    · rw [countP_map_own, List.countP_append]
      have z1 : (t.listeners.filter (fun q => decide (q.1 = ty))).countP
          (fun a => decide (((a.2, v) : Nat × JSVal).1 = s.nextEntryId + 1)) = 0 := by
        apply List.countP_eq_zero.mpr
        intro q hq
        have := htb2 q (List.mem_of_mem_filter hq)
        simp only [decide_eq_true_eq]
        omega
      rw [z1]
      simp
  · rw [hh1]
    rw [stop_some s3 (ty, s.nextEntryId) hes3]
    have hregmem : ∀ q ∈ s3.listeners, (fun q => decide (q ≠ (ty, s.nextEntryId))) q = true := by
      intro q hq
      rw [hs3, stop_listeners] at hq
      exact (List.mem_filter.mp hq).2
    rw [List.filter_eq_self.mpr hregmem]
    rw [modifyAt_eq_self]
    intro t2 ht2
    have ht2g : s3.getT tid = some t2 := ht2
    rw [hgt3s] at ht2g
    cases Option.some.inj ht2g
    rw [Transport.removeListener]
    simp only [List.filter_append]
    rw [List.filter_eq_self.mpr]
    · simp
    · intro q hq
      have := htb2 q hq
      simp only [decide_eq_true_eq]
      intro he
      rw [he] at this
      simp at this

/-- witness for C6 on a freshly constructed manager: two handlers on the
same event name, the first detached, one message delivered. -/
theorem stopListening_removes_only_its_entry_witness :
    (∃ D, (((((TypedEventSource.construct none).on "e").2.on "e").2.stopListening
          ((TypedEventSource.construct none).on "e").1).deliver
            (fun _ => some (JSVal.jnum 1)) 0 "e" (JSVal.jbool true)).invocations
        = ((((TypedEventSource.construct none).on "e").2.on "e").2.stopListening
            ((TypedEventSource.construct none).on "e").1).invocations ++ D ∧
      D.countP (fun q => decide (q.1 = (TypedEventSource.construct none).nextEntryId)) = 0 ∧
      D.countP (fun q =>
        decide (q.1 = (TypedEventSource.construct none).nextEntryId + 1)) = 1) ∧
    ((((TypedEventSource.construct none).on "e").2.on "e").2.stopListening
        ((TypedEventSource.construct none).on "e").1).stopListening
        ((TypedEventSource.construct none).on "e").1
      = (((TypedEventSource.construct none).on "e").2.on "e").2.stopListening
          ((TypedEventSource.construct none).on "e").1 :=
  have h := stopListening_removes_only_its_entry (fun _ => some (JSVal.jnum 1))
    (TypedEventSource.construct none)
    ((((TypedEventSource.construct none).on "e").2.on "e").2.stopListening
      ((TypedEventSource.construct none).on "e").1)
    "e" (JSVal.jbool true) (JSVal.jbool true) 0 ⟨false, []⟩
    (wf_construct none) rfl rfl rfl rfl rfl
  ⟨h.2.1, h.2.2⟩
